import Mathlib

/-!
Verification development for the Telnet/CLI automation engine of the
TACACS dashboard repository.  The Python sources under
`tacacs_dashboard/services/` (`olt_telnet.py`, `web_terminal.py`,
`privilege.py`, `olt_provision.py`) are shallowly embedded below:
pure text processing is translated to functions on `List Char` /
`String`, the pexpect pattern searcher is modelled explicitly, and the
stateful login / enable / command loops are modelled as functions over
scripted device responses (one response per `expect` call).
-/

namespace TacacsDash

/-- Python `\s` on the ASCII range (space, tab, newline, carriage
return, vertical tab, form feed); the device streams modelled here are
ASCII. -/
def pyWs (c : Char) : Bool :=
  c = ' ' || c = '\t' || c = '\n' || c = '\r' || c = '\x0b' || c = '\x0c'

/-- Python `str.strip()` on a character list (ASCII whitespace). -/
def stripL (s : List Char) : List Char :=
  ((s.dropWhile pyWs).reverse.dropWhile pyWs).reverse

/-- Python `str.strip()` on a `String`. -/
def stripS (s : String) : String := String.mk (stripL s.data)

/-- Python `str.upper()` after `strip()`, as used on role names. -/
def stripUpperS (s : String) : String := String.mk ((stripL s.data).map Char.toUpper)

/-- Python `s.strip().endswith(">")`, the check that decides whether the
session sits at the unprivileged prompt. -/
def stripEndsGt (s : String) : Bool :=
  (stripL s.data).getLast? = some '>'

/-- Python `str.rstrip("\n")` as applied to each batch command. -/
def rstripNl (s : String) : String :=
  String.mk (s.data.reverse.dropWhile (fun c => c = '\n')).reverse

/-- Association-list lookup modelling a Python `dict` access keyed by
strings. -/
def lookupS (k : String) : List (String × Int) → Option Int
  | [] => none
  | (k2, v) :: rest => if k = k2 then some v else lookupS k rest

/-! ## Output Normalizer (`olt_telnet._strip_ansi`, `_normalize_backspaces`, `_clean_output`) -/

/-- The CR/LF normalisation of `_strip_ansi`:
`s.replace("\r\n", "\n").replace("\r", "\n")`. -/
def crlf : List Char → List Char
  | [] => []
  | '\r' :: '\n' :: rest => '\n' :: crlf rest
  | '\r' :: rest => '\n' :: crlf rest
  | c :: rest => c :: crlf rest

/-- Character class `[@-Z\\-_]` of `_ANSI_RE` (0x40-0x5A and 0x5C-0x5F). -/
def inAnsiSingle (c : Char) : Bool :=
  ('@' ≤ c && c ≤ 'Z') || ('\\' ≤ c && c ≤ '_')

/-- Character class `[0-?]` (CSI parameter bytes 0x30-0x3F). -/
def isCsiParam (c : Char) : Bool := '0' ≤ c && c ≤ '?'

/-- Character class of CSI intermediate bytes 0x20-0x2F. -/
def isCsiInter (c : Char) : Bool := ' ' ≤ c && c ≤ '/'

/-- Character class `[@-~]` (CSI final bytes 0x40-0x7E). -/
def isCsiFinal (c : Char) : Bool := '@' ≤ c && c ≤ '~'

/-- Given the characters after an ESC byte, return the suffix after a
`_ANSI_RE` match (ESC then either one 0x40-0x5A or 0x5C-0x5F byte, or a
CSI sequence: a bracket, parameter bytes, intermediate bytes and one
final byte), or `none` when the regex does not match at this ESC. -/
def ansiTail (s : List Char) : Option (List Char) :=
  match s with
  | [] => none
  | c :: r =>
    if c = '[' then
      match (r.dropWhile isCsiParam).dropWhile isCsiInter with
      | d :: r3 => if isCsiFinal d then some r3 else none
      | [] => none
    else if inAnsiSingle c then some r
    else none

/-- `re.sub(_ANSI_RE, "", s)` written as a fuelled left-to-right scan
(re.sub replaces non-overlapping leftmost matches; an unmatched ESC is
kept and scanning resumes after it).  The fuel only bounds the number
of steps; `subAnsi` supplies `s.length`, which is always sufficient
because every step consumes at least one input character. -/
def subAnsiF : Nat → List Char → List Char
  | 0, s => s
  | _ + 1, [] => []
  | fuel + 1, c :: rest =>
    if c = '\x1b' then
      match ansiTail rest with
      | some r => subAnsiF fuel r
      | none => c :: subAnsiF fuel rest
    else c :: subAnsiF fuel rest

def subAnsi (s : List Char) : List Char := subAnsiF s.length s

/-- Given the characters after an ESC byte, the suffix after a
`_CSI_MOVE_RE` match (`\x1B\[[0-9;]*[A-Za-z]`), if any. -/
def csiMoveTail (s : List Char) : Option (List Char) :=
  match s with
  | [] => none
  | c :: r =>
    if c = '[' then
      match r.dropWhile (fun d => d.isDigit || d = ';') with
      | d :: r2 => if d.isAlpha then some r2 else none
      | [] => none
    else none

/-- `re.sub(_CSI_MOVE_RE, "", s)`, fuelled like `subAnsiF`. -/
def subCsiMoveF : Nat → List Char → List Char
  | 0, s => s
  | _ + 1, [] => []
  | fuel + 1, c :: rest =>
    if c = '\x1b' then
      match csiMoveTail rest with
      | some r => subCsiMoveF fuel r
      | none => c :: subCsiMoveF fuel rest
    else c :: subCsiMoveF fuel rest

def subCsiMove (s : List Char) : List Char := subCsiMoveF s.length s

/-- `olt_telnet._strip_ansi`: CR/LF normalisation followed by the two
regex substitutions. -/
def strip_ansi (s : List Char) : List Char := subCsiMove (subAnsi (crlf s))

/-- The loop body of `_normalize_backspaces`, with the pending buffer
kept in reverse order so that `buf.pop()` is `List.tail`. -/
def nbRev : List Char → List Char → List Char
  | acc, [] => acc
  | acc, c :: rest => if c = '\x08' then nbRev acc.tail rest else nbRev (c :: acc) rest

/-- `olt_telnet._normalize_backspaces`: each backspace deletes the
previous pending character, never underflowing. -/
def normalize_backspaces (s : List Char) : List Char := (nbRev [] s).reverse

/-- `noUnderflow d s` holds when, starting from a pending buffer of
depth `d`, every backspace in `s` finds a character to delete.  A chunk
with `noUnderflow 0` is a chunk with balanced backspaces. -/
def noUnderflow : Nat → List Char → Bool
  | _, [] => true
  | d, c :: rest =>
    if c = '\x08' then decide (0 < d) && noUnderflow (d - 1) rest
    else noUnderflow (d + 1) rest

/-- `re.sub(r"\n{4,}", "\n\n\n", s)`: every maximal run of four or more
newlines collapses to three.  Fuelled scan as for `subAnsiF`. -/
def collapseNlF : Nat → List Char → List Char
  | 0, s => s
  | _ + 1, [] => []
  | fuel + 1, c :: rest =>
    if c = '\n' then
      (if 4 ≤ (rest.takeWhile (fun d => d = '\n')).length + 1 then ['\n', '\n', '\n']
       else '\n' :: rest.takeWhile (fun d => d = '\n')) ++
        collapseNlF fuel (rest.dropWhile (fun d => d = '\n'))
    else c :: collapseNlF fuel rest

def collapseNl (s : List Char) : List Char := collapseNlF s.length s

/-- `olt_telnet._clean_output`: strip ANSI, resolve backspaces, bound
blank-line runs. -/
def clean_output (s : List Char) : List Char :=
  collapseNl (normalize_backspaces (strip_ansi s))

/-- `_clean_output` on `String`s, as stored into `TelnetCommandResult.output`. -/
def cleanOutputS (s : String) : String := String.mk (clean_output s.data)

/-! ## Prompt/Event Classifier

The pattern tables of `olt_telnet.py` and `web_terminal.py` are compiled
regexes handed to `pexpect.spawn.expect`.  pexpect resolves competing
patterns with `searcher_re`: every pattern is searched in the whole
unconsumed buffer, the pattern whose earliest match starts first wins,
and a tie at the same start position is broken by pattern-list order.
Each matcher below returns the earliest match of one source regex as
`some (start, stop)` (`stop` exclusive), or `none`. -/

/-- Character comparison, optionally case-insensitive (the `(?i)` flag). -/
def chEq (ci : Bool) (a b : Char) : Bool :=
  if ci then a.toLower = b.toLower else a = b

/-- Does the literal `pat` match at the head of `s`? -/
def litHere (ci : Bool) : List Char → List Char → Bool
  | [], _ => true
  | _ :: _, [] => false
  | p :: ps, c :: cs => chEq ci p c && litHere ci ps cs

/-- First alternative (in the order the source regex lists them) that
matches at the head of `s`; returns its length.  Mirrors Python
alternation, which takes the first alternative that matches at a given
start. -/
def firstAlt (ci : Bool) (alts : List (List Char)) (s : List Char) : Option Nat :=
  match alts with
  | [] => none
  | a :: rest => if litHere ci a s then some a.length else firstAlt ci rest s

/-- Earliest match of an alternation of literals: scan start positions
left to right (this is `re.search` on a regex with no anchors). -/
def litFind (ci : Bool) (alts : List (List Char)) : List Char → Nat → Option (Nat × Nat)
  | [], i =>
    match firstAlt ci alts [] with
    | some l => some (i, i + l)
    | none => none
  | c :: rest, i =>
    match firstAlt ci alts (c :: rest) with
    | some l => some (i, i + l)
    | none => litFind ci alts rest (i + 1)

/-- Largest index in `l` holding a newline, if any. -/
def lastNl : List Char → Option Nat
  | [] => none
  | c :: r =>
    match lastNl r with
    | some k => some (k + 1)
    | none => if c = '\n' then some 0 else none

/-- For `PROMPT_RE = [>#]\s*$` (re.M): given the characters following a
`>` or `#`, the offset of the position where `$` holds after a greedy,
backtracking `\s*` — the largest `k` within the leading whitespace run
such that position `k` is the end of the input or a newline. -/
def promptEnd (rest : List Char) : Option Nat :=
  if (rest.takeWhile pyWs).length = rest.length then some rest.length
  else lastNl (rest.takeWhile pyWs)

/-- Earliest match of `PROMPT_RE` (a `>` or `#` followed by whitespace
up to an end of line). -/
def promptFind : List Char → Nat → Option (Nat × Nat)
  | [], _ => none
  | c :: rest, i =>
    if c = '>' || c = '#' then
      match promptEnd rest with
      | some k => some (i, i + 1 + k)
      | none => promptFind rest (i + 1)
    else promptFind rest (i + 1)

/-- `PROMPT_RE` (identical in both modules). -/
def promptM (buf : List Char) : Option (Nat × Nat) := promptFind buf 0

/-- `MORE_RE = --More--` (case sensitive). -/
def moreM (buf : List Char) : Option (Nat × Nat) :=
  litFind false [("--More--").data] buf 0

/-- `olt_telnet.DENIED_RE = (?i)(denied|not authorized|invalid|incorrect|failed)`. -/
def deniedOltM (buf : List Char) : Option (Nat × Nat) :=
  litFind true
    [("denied").data, ("not authorized").data, ("invalid").data,
     ("incorrect").data, ("failed").data] buf 0

/-- `olt_telnet.LOGIN_FAIL_RE = (?i)(login incorrect|bad password|authentication failed)`. -/
def loginFailOltM (buf : List Char) : Option (Nat × Nat) :=
  litFind true
    [("login incorrect").data, ("bad password").data,
     ("authentication failed").data] buf 0

/-- `web_terminal.DENIED_RE` (the longer keyword set). -/
def deniedWtM (buf : List Char) : Option (Nat × Nat) :=
  litFind true
    [("denied").data, ("failed").data, ("not authorized").data,
     ("invalid").data, ("incorrect").data, ("authentication failed").data,
     ("login incorrect").data] buf 0

/-- `LOGIN_RE = (?i)(username:|login:)`. -/
def loginM (buf : List Char) : Option (Nat × Nat) :=
  litFind true [("username:").data, ("login:").data] buf 0

/-- `PASS_RE = (?i)password:`. -/
def passM (buf : List Char) : Option (Nat × Nat) :=
  litFind true [("password:").data] buf 0

/-- pexpect `searcher_re.search` over a pattern list: the match with
the smallest start position wins; a tie keeps the pattern that comes
first in the list.  `i` is the list index of the first pattern. -/
def searchFrom : List (List Char → Option (Nat × Nat)) → List Char → Nat →
    Option (Nat × Nat × Nat)
  | [], _, _ => none
  | p :: ps, buf, i =>
    match p buf, searchFrom ps buf (i + 1) with
    | none, r => r
    | some (s, e), none => some (i, s, e)
    | some (s, e), some (j, s2, e2) =>
      if s2 < s then some (j, s2, e2) else some (i, s, e)

/-- The string-pattern part of the list passed to `expect` inside
`_run_one_command`: `[MORE_RE, PROMPT_RE, DENIED_RE, LOGIN_FAIL_RE,
TIMEOUT, EOF]` (the last two are not text patterns; exhausting the
scripted reads models TIMEOUT). -/
def oltCmdPats : List (List Char → Option (Nat × Nat)) :=
  [moreM, promptM, deniedOltM, loginFailOltM]

/-- The string-pattern part of the `expect` list used by
`web_terminal.create_session` while waiting for the first prompt after
the password: `[PROMPT_RE, DENIED_RE, LOGIN_RE, PASS_RE, TIMEOUT, EOF]`. -/
def csPromptWaitPats : List (List Char → Option (Nat × Nat)) :=
  [promptM, deniedWtM, loginM, passM]

/-- One `expect` call over scripted raw reads: the unconsumed buffer is
searched; while no pattern matches, the next read is appended (pexpect
accumulates incoming data into `self.buffer`).  On a match the call
returns the winning index, `child.before` (text before the match),
`child.after` (the matched text), the remaining buffer and the
remaining reads; exhausted reads model `pexpect.TIMEOUT`. -/
def expectRaw (pats : List (List Char → Option (Nat × Nat))) :
    List (List Char) → List Char →
    Option (Nat × List Char × List Char × List Char × List (List Char))
  | [], buf =>
    match searchFrom pats buf 0 with
    | some (i, s, e) => some (i, buf.take s, (buf.drop s).take (e - s), buf.drop e, [])
    | none => none
  | r :: rs, buf =>
    match searchFrom pats buf 0 with
    | some (i, s, e) =>
      some (i, buf.take s, (buf.drop s).take (e - s), buf.drop e, r :: rs)
    | none => expectRaw pats rs (buf ++ r)

/-! ## `_run_one_command`, raw-text level

`olt_telnet._run_one_command` sends the command and loops on
`child.expect([MORE_RE, PROMPT_RE, DENIED_RE, LOGIN_FAIL_RE, TIMEOUT,
EOF])`, appending `child.before + child.after` to the capture each
time; `--More--` gets a space and the loop continues, a prompt breaks
the loop returning the capture, DENIED/LOGIN_FAIL raise, TIMEOUT
raises.  The scripted reads stand for the bytes the device sends (they
start with the echoed command, as a real Telnet server echoes it). -/

/-- Errors raised by the batch command runner. -/
inductive TErr where
  | cmdDenied (cmd : String)
  | cmdTimeout (cmd : String)
deriving DecidableEq

/-- The `while True` loop of `_run_one_command` over raw reads.  The
fuel only bounds the number of `expect` iterations; every iteration
with a match consumes at least one buffered character, so
`fuelFor reads` below is always sufficient. -/
def runRawLoop (cmd : String) : Nat → List Char → List (List Char) → List Char →
    Except TErr (List Char)
  | 0, _, _, _ => .error (.cmdTimeout cmd)
  | fuel + 1, buf, reads, acc =>
    match expectRaw oltCmdPats reads buf with
    | none => .error (.cmdTimeout cmd)
    | some (i, bef, aft, buf2, reads2) =>
      if i = 0 then runRawLoop cmd fuel buf2 reads2 (acc ++ bef ++ aft)
      else if i = 1 then .ok (acc ++ bef ++ aft)
      else .error (.cmdDenied cmd)

/-- Upper bound on the number of loop iterations possible for a given
read script. -/
def fuelFor (reads : List (List Char)) : Nat :=
  reads.foldr (fun r a => r.length + a) 0 + reads.length + 1

/-- `_run_one_command` on scripted raw reads: the raw capture for one
command. -/
def runOneCommandRaw (cmd : String) (reads : List (List Char)) : Except TErr (List Char) :=
  runRawLoop cmd (fuelFor reads) [] reads []

/-- The `CommandResult.output` the batch executor stores for one
command: `_clean_output` of the raw capture. -/
def runOneCommandClean (cmd : String) (reads : List (List Char)) : Except TErr (List Char) :=
  (runOneCommandRaw cmd reads).map clean_output

/-- Is `pat` a contiguous sub-sequence of `s`?  Used to state that a
capture still contains the echoed command line. -/
def containsChunk (pat : List Char) : List Char → Bool
  | [] => litHere false pat []
  | c :: rest => litHere false pat (c :: rest) || containsChunk pat rest

/-! ## `_run_one_command` and `telnet_exec_commands`, event level

For the batch control-flow claims the `expect` outcome of each loop
iteration is taken as an oracle: one `Ev` per `expect` call, carrying
the captured text `child.before + child.after`. -/

/-- Classified outcome of one `expect` call inside `_run_one_command`. -/
inductive Ev where
  | more (t : String)
  | prompt (t : String)
  | denied (t : String)
  | loginFail (t : String)
  | timeout
  | eof (t : String)
deriving DecidableEq

/-- The command loop of `_run_one_command`: `--More--` appends and
continues, a prompt (or EOF, which falls through to the final `break`)
returns the capture, DENIED/LOGIN_FAIL raise `cmdDenied`, TIMEOUT
raises `cmdTimeout`.  Also returns the remaining events and the number
of `expect` iterations (drains) used. -/
def runCmdLoop (cmd : String) (acc : String) (n : Nat) :
    List Ev → Except TErr (String × List Ev × Nat)
  | [] => .error (.cmdTimeout cmd)
  | e :: rest =>
    match e with
    | .more t => runCmdLoop cmd (acc ++ t) (n + 1) rest
    | .prompt t => .ok (acc ++ t, rest, n + 1)
    | .denied _ => .error (.cmdDenied cmd)
    | .loginFail _ => .error (.cmdDenied cmd)
    | .timeout => .error (.cmdTimeout cmd)
    | .eof t => .ok (acc ++ t, rest, n + 1)

/-- `olt_telnet.TelnetCommandResult`. -/
structure TelnetCommandResult where
  cmd : String
  output : String
deriving DecidableEq

/-- The `for cmd in commands` loop of `telnet_exec_commands`: empty
commands (after `rstrip("\n")`) are skipped, each remaining command
runs `_run_one_command`, and its cleaned capture becomes a
`TelnetCommandResult`.  There is no try/except around the loop body, so
an error raised for one command propagates and aborts the whole batch. -/
def execCmds : List String → List Ev → Except TErr (List TelnetCommandResult × List Ev)
  | [], evs => .ok ([], evs)
  | c :: cs, evs =>
    if rstripNl c = "" then execCmds cs evs
    else
      match runCmdLoop (rstripNl c) "" 0 evs with
      | .error e => .error e
      | .ok (raw, rest, _) =>
        match execCmds cs rest with
        | .error e => .error e
        | .ok (rs, rest2) =>
          .ok ({ cmd := rstripNl c, output := cleanOutputS raw } :: rs, rest2)

/-! ## Privilege escalation

`web_terminal._enable_with_fallbacks` sends `enable <level>` and, when
a password prompt follows, tries a candidate list built from the login
password, the configured enable password and the combined
`"username password"` form.  `olt_telnet._auto_enable` instead answers
the password prompt with exactly one secret.  Device responses are
scripted: one `EnResp` per password submission in the fallback loop. -/

/-- Outcome of `child.expect([PROMPT_RE, PASS_RE, DENIED_RE, TIMEOUT])`
after one candidate password is sent. -/
inductive EnResp where
  | prompt
  | askAgain
  | denied
  | timeout
deriving DecidableEq

/-- Result of an escalation attempt; `success`, `deniedE` and `failedE`
record how many password submissions were made. -/
inductive EnOutcome where
  | success (subs : Nat)
  | deniedE (subs : Nat)
  | timeoutE
  | failedE (subs : Nat)
deriving DecidableEq

/-- The candidate list construction of `_enable_with_fallbacks`:
`[login_password]`, then the enable password from the environment if it
is truthy and not already present, then `f"{username} {login_password}"`
if not already present. -/
def buildCandidates (username login_password enable_pw : String) : List String :=
  let c1 := [login_password]
  let c2 := if enable_pw ≠ "" ∧ enable_pw ∉ c1 then c1 ++ [enable_pw] else c1
  if (username ++ " " ++ login_password) ∉ c2 then
    c2 ++ [username ++ " " ++ login_password]
  else c2

/-- The `for cand in candidates` loop: a prompt returns, a repeated
password prompt moves to the next candidate, DENIED raises, and a
timeout falls through to the next candidate (no branch handles
`idx2 == 3`); exhausting the list raises the final enable-failed error.
Responses beyond the scripted list behave as timeouts.  `n` counts
password submissions already made. -/
def enableLoop : List String → List EnResp → Nat → EnOutcome
  | [], _, n => .failedE n
  | _ :: cs, [], n => enableLoop cs [] (n + 1)
  | _ :: cs, r :: rs, n =>
    match r with
    | .prompt => .success (n + 1)
    | .askAgain => enableLoop cs rs (n + 1)
    | .denied => .deniedE (n + 1)
    | .timeout => enableLoop cs rs (n + 1)

/-- Outcome of the first `expect` after `enable <level>` is sent. -/
inductive EnFirst where
  | pass
  | prompt
  | denied
  | timeout
deriving DecidableEq

/-- `web_terminal._enable_with_fallbacks`: already at a prompt means no
password was needed; DENIED or TIMEOUT on the first wait raise; a
password prompt enters the candidate loop. -/
def enableFallbacks (username login_password enable_pw : String)
    (r0 : EnFirst) (resps : List EnResp) : EnOutcome :=
  match r0 with
  | .prompt => .success 0
  | .denied => .deniedE 0
  | .timeout => .timeoutE
  | .pass => enableLoop (buildCandidates username login_password enable_pw) resps 0

/-- The single secret `olt_telnet._auto_enable` answers the enable
password prompt with: `(enable_password or "").strip() or (login_password or "")`. -/
def chosenEnableSecret (login_password : String) (enable_password : Option String) : String :=
  if stripS (enable_password.getD "") ≠ "" then stripS (enable_password.getD "")
  else login_password

/-- Outcome of the first `expect` of `_auto_enable` (after
`enable <level>`): `[PASS_RE, PROMPT_RE, DENIED_RE, TIMEOUT, EOF]`. -/
inductive AE1 where
  | pass
  | prompt
  | denied
  | timeout
  | eof
deriving DecidableEq

/-- Outcome of the second `expect` of `_auto_enable` (after the single
password submission): `[PROMPT_RE, DENIED_RE, TIMEOUT, EOF]`. -/
inductive AE2 where
  | prompt
  | denied
  | timeout
  | eof
deriving DecidableEq

/-- Result of `_auto_enable` when starting from a `>` prompt: `ok` with
the number of password submissions and the secret used (if any), or an
error after that many submissions. -/
inductive AEOut where
  | ok (subs : Nat) (secret : Option String)
  | err (subs : Nat)
deriving DecidableEq

/-- `olt_telnet._auto_enable` after the `enable <level>` line: a
password prompt triggers exactly one submission of
`chosenEnableSecret`; anything but a prompt after it raises.  No second
candidate is ever tried. -/
def autoEnable (login_password : String) (enable_password : Option String)
    (r0 : AE1) (r1 : AE2) : AEOut :=
  match r0 with
  | .prompt => .ok 0 none
  | .denied => .err 0
  | .timeout => .err 0
  | .eof => .err 0
  | .pass =>
    match r1 with
    | .prompt => .ok 1 (some (chosenEnableSecret login_password enable_password))
    | .denied => .err 1
    | .timeout => .err 1
    | .eof => .err 1

/-! ## Privilege-level resolution -/

/-- `olt_telnet.ROLE_TO_ENABLE = {"OLT_VIEW": 1, "OLT_ENGINEER": 7, "OLT_ADMIN": 15}`. -/
def ROLE_TO_ENABLE : List (String × Int) :=
  [("OLT_VIEW", 1), ("OLT_ENGINEER", 7), ("OLT_ADMIN", 15)]

/-- `olt_telnet._resolve_enable_level`: a truthy role is resolved via
`ROLE_TO_ENABLE` (default 15) and wins over everything; otherwise an
explicitly supplied level is returned as is; otherwise 15. -/
def resolve_enable_level (role : Option String) (enable_level : Option Int) : Int :=
  match role with
  | some r =>
    if r ≠ "" then (lookupS (stripUpperS r) ROLE_TO_ENABLE).getD 15
    else
      match enable_level with
      | some n => n
      | none => 15
  | none =>
    match enable_level with
    | some n => n
    | none => 15

/-- Value of the first run of digits in a character list, if any
(Python `re.search(r"\d+", ...)`). -/
def firstIntL : List Char → Option Nat
  | [] => none
  | c :: rest =>
    if c.isDigit then
      some ((c :: rest.takeWhile Char.isDigit).foldl
        (fun a d => a * 10 + (d.toNat - 48)) 0)
    else firstIntL rest

/-- `privilege.parse_privilege`: extract the first integer of the input
(or use the default) and clamp it into 1..15. -/
def parse_privilege (value : Option String) (default : Int) : Int :=
  match value with
  | none => max 1 (min 15 default)
  | some s =>
    match firstIntL s.data with
    | none => max 1 (min 15 default)
    | some n => max 1 (min 15 (Int.ofNat n))

/-! ## Session Registry (`web_terminal._SESSIONS`, `create_session`, `send_line`)

A registry is a list of `(session_id, last_access)` pairs standing for
the module-level `_SESSIONS` dict (the other per-session fields play no
role in the claims below).  Times are integers (`time.time()` values).
The spawned telnet child process is represented by the `channelClosed`
flag of the result of `create_session`. -/

/-- `web_terminal.IDLE_TTL = 15 * 60` seconds. -/
def IDLE_TTL : Int := 15 * 60

/-- `web_terminal._cleanup_expired`: collect the ids whose
`now - last_access > IDLE_TTL`, then pop and close each.  Returns the
surviving registry and the list of reaped (closed) session ids. -/
def cleanupExpired (now : Int) (reg : List (String × Int)) :
    List (String × Int) × List String :=
  (reg.filter fun e => decide (now - e.2 ≤ IDLE_TTL),
   (reg.filter fun e => decide (IDLE_TTL < now - e.2)).map Prod.fst)

/-- Errors of `send_line`: `ValueError("session_id required")` and
`KeyError("session not found")`. -/
inductive SendErr where
  | sessionIdRequired
  | sessionNotFound
deriving DecidableEq

/-- The `last_access` refresh performed by `send_line` on a hit. -/
def bumpAccess (now : Int) (sid : String) (reg : List (String × Int)) :
    List (String × Int) :=
  reg.map fun e => if e.1 = sid then (e.1, now) else e

/-- The registry part of `web_terminal.send_line`: run the idle sweep,
strip and validate the id, look the session up (absent means
`session not found`), refresh `last_access`.  Returns the registry
after the call. -/
def sendLineM (now : Int) (session_id : String) (reg : List (String × Int)) :
    Except SendErr (List (String × Int)) :=
  let reg2 := (cleanupExpired now reg).1
  if stripS session_id = "" then .error .sessionIdRequired
  else
    match lookupS (stripS session_id) reg2 with
    | none => .error .sessionNotFound
    | some _ => .ok (bumpAccess now (stripS session_id) reg2)

/-- Outcome of `child.expect([LOGIN_RE, DENIED_RE, TIMEOUT, EOF])`, the
wait for the username prompt in `create_session`. -/
inductive R1 where
  | login
  | denied
  | timeout
  | eof
deriving DecidableEq

/-- Outcome of `child.expect([PASS_RE, DENIED_RE, LOGIN_RE, TIMEOUT, EOF])`,
the wait for the password prompt. -/
inductive R2 where
  | pass
  | denied
  | login
  | timeout
  | eof
deriving DecidableEq

/-- Outcome of `child.expect([PROMPT_RE, DENIED_RE, LOGIN_RE, PASS_RE,
TIMEOUT, EOF])`, the wait for the first prompt after the password; a
prompt carries `child.after` (the matched prompt text). -/
inductive R3 where
  | prompt (after : String)
  | denied
  | login
  | pass
  | timeout
  | eof
deriving DecidableEq

/-- Errors raised by `create_session` after the channel is spawned. -/
inductive CsErr where
  | noLoginPrompt
  | noPassPrompt
  | loginDenied
  | loginFailed
  | noPromptAfterLogin
  | enableDenied
  | enableTimeout
  | enableFailed
deriving DecidableEq

/-- The scripted device behaviour for one `create_session` call. -/
structure CsScript where
  r1 : R1
  r2 : R2
  r3 : R3
  en0 : EnFirst
  enResps : List EnResp
deriving DecidableEq

/-- Result of `create_session`: the returned value (or raised error),
whether the spawned channel was closed, and the registry afterwards. -/
structure CsOut where
  res : Except CsErr String
  channelClosed : Bool
  reg : List (String × Int)

/-- `web_terminal.create_session` from the point the telnet child is
spawned: wait for the username prompt, send the username, wait for the
password prompt, send the password, wait for a prompt; every non-hit
closes the channel (`child.close(force=True)`) and raises.  If the
prompt (stripped) ends in `>`, `_enable_with_fallbacks` runs; its
failure also closes the channel and re-raises.  On success the session
is stored into `_SESSIONS` under the fresh uuid `sid` before the
function returns. -/
def createSessionM (sc : CsScript) (username password enable_pw sid : String)
    (now : Int) (reg : List (String × Int)) : CsOut :=
  match sc.r1 with
  | .login =>
    match sc.r2 with
    | .pass =>
      match sc.r3 with
      | .prompt t =>
        if stripEndsGt t then
          match enableFallbacks username password enable_pw sc.en0 sc.enResps with
          | .success _ => { res := .ok sid, channelClosed := false, reg := (sid, now) :: reg }
          | .deniedE _ => { res := .error .enableDenied, channelClosed := true, reg := reg }
          | .timeoutE => { res := .error .enableTimeout, channelClosed := true, reg := reg }
          | .failedE _ => { res := .error .enableFailed, channelClosed := true, reg := reg }
        else { res := .ok sid, channelClosed := false, reg := (sid, now) :: reg }
      | .denied => { res := .error .loginDenied, channelClosed := true, reg := reg }
      | .login => { res := .error .loginFailed, channelClosed := true, reg := reg }
      | .pass => { res := .error .loginFailed, channelClosed := true, reg := reg }
      | .timeout => { res := .error .noPromptAfterLogin, channelClosed := true, reg := reg }
      | .eof => { res := .error .noPromptAfterLogin, channelClosed := true, reg := reg }
    | _ => { res := .error .noPassPrompt, channelClosed := true, reg := reg }
  | _ => { res := .error .noLoginPrompt, channelClosed := true, reg := reg }

/-! ## Provisioning guard (`olt_provision.deprovision_user_on_olt`) -/

/-- The secret.env values `deprovision_user_on_olt` reads. -/
structure ProvEnv where
  adminUser : String
  adminPass : String
  enable15 : String
deriving DecidableEq

inductive ProvErr where
  | missingAdminPassword
  | refuseDeleteAdmin
deriving DecidableEq

/-- What a (de)provisioning call ends up doing: a dry-run preview, or a
real telnet job against the device. -/
inductive ProvAction where
  | dryRun (text : String)
  | telnetJob (host user pass enablePass : String) (cmds : List String)
deriving DecidableEq

/-- `olt_provision.build_deprovision_commands`. -/
def build_deprovision_commands (username : String) : List String :=
  ["conf t", "system-user", "no user-name " ++ username, "end"]

/-- `olt_provision.deprovision_user_on_olt`: missing admin password
raises; a target username equal to the configured admin user raises
before the command list is built; only then does the function either
return the dry-run text or start the telnet job (the only network
activity). -/
def deprovision_user_on_olt (env : ProvEnv) (olt_ip username : String)
    (save dry_run : Bool) : Except ProvErr ProvAction :=
  if env.adminPass = "" then .error .missingAdminPassword
  else if username = env.adminUser then .error .refuseDeleteAdmin
  else
    let cmds := build_deprovision_commands username ++ (if save then ["write"] else [])
    if dry_run then .ok (.dryRun ("DRY-RUN (no changes)\n" ++ String.intercalate "\n" cmds))
    else .ok (.telnetJob olt_ip env.adminUser env.adminPass env.enable15 cmds)

/-! ## Helper lemmas -/

theorem lookupS_mem : ∀ (l : List (String × Int)) (k : String) (v : Int),
    lookupS k l = some v → (k, v) ∈ l := by
  intro l
  induction l with
  | nil => intro k v h; simp [lookupS] at h
  | cons e rest ih =>
    intro k v h
    obtain ⟨k2, v2⟩ := e
    by_cases hk : k = k2
    · subst hk
      simp [lookupS] at h
      subst h
      exact List.mem_cons_self _ _
    · simp [lookupS, hk] at h
      exact List.mem_cons_of_mem _ (ih _ _ h)

theorem lookupS_filter_none (p : String × Int → Bool) :
    ∀ (l : List (String × Int)) (k : String),
    (∀ v, (k, v) ∈ l → p (k, v) = false) → lookupS k (l.filter p) = none := by
  intro l
  induction l with
  | nil => intro k _; rfl
  | cons e rest ih =>
    intro k h
    obtain ⟨k2, v2⟩ := e
    by_cases hp : p (k2, v2)
    · rw [List.filter_cons_of_pos hp]
      by_cases hk : k = k2
      · exfalso
        subst hk
        have := h v2 (List.mem_cons_self _ _)
        rw [this] at hp
        exact Bool.noConfusion hp
      · simp only [lookupS, if_neg hk]
        exact ih k fun v hv => h v (List.mem_cons_of_mem _ hv)
    · rw [List.filter_cons_of_neg hp]
      exact ih k fun v hv => h v (List.mem_cons_of_mem _ hv)

/-- The command loop errors out as soon as the event after a (possibly
empty) run of pagination markers is a DENIED classification. -/
theorem runCmdLoop_denied (cmd d : String) :
    ∀ (ms rest : List Ev) (acc : String) (n : Nat),
    (∀ e ∈ ms, ∃ s, e = Ev.more s) →
    runCmdLoop cmd acc n (ms ++ Ev.denied d :: rest) = .error (.cmdDenied cmd) := by
  intro ms
  induction ms with
  | nil => intro rest acc n _; rfl
  | cons e es ih =>
    intro rest acc n h
    obtain ⟨s, rfl⟩ := h e (List.mem_cons_self e es)
    exact ih rest (acc ++ s) (n + 1) fun x hx => h x (List.mem_cons_of_mem _ hx)

/-! ## Claim C10 -/

/-- Claim C10: for every call to `deprovision_user_on_olt` whose target
username equals the configured admin user, the function returns an
error before any network activity (no `ProvAction`, in particular no
`telnetJob`, is ever produced), so the provisioning admin account is
never deleted from a device. -/
theorem C10_refuse_delete_admin (env : ProvEnv) (olt_ip username : String)
    (save dry_run : Bool) (h : username = env.adminUser) :
    ∃ e, deprovision_user_on_olt env olt_ip username save dry_run = .error e := by
  unfold deprovision_user_on_olt
  by_cases hp : env.adminPass = ""
  · exact ⟨.missingAdminPassword, by simp [hp]⟩
  · exact ⟨.refuseDeleteAdmin, by simp [hp, h]⟩

theorem C10_refuse_delete_admin_witness :
    ∃ e, deprovision_user_on_olt ⟨"zte", "secret", "en15"⟩ "10.0.0.5" "zte" false false =
      .error e :=
  C10_refuse_delete_admin ⟨"zte", "secret", "en15"⟩ "10.0.0.5" "zte" false false rfl

/-! ## Claim C7 -/

/-- Claim C7 counterexample: with both a role and an explicit numeric
level supplied, `_resolve_enable_level` returns the role-derived level
(1 for OLT_VIEW), not the explicit 15 — the numeric override does not
take precedence; and with no role, an out-of-range explicit level 99 is
returned unclamped. -/
theorem C7_level_counterexample :
    resolve_enable_level (some "OLT_VIEW") (some 15) = 1 ∧
    resolve_enable_level none (some 99) = 99 ∧ ¬ ((99 : Int) ≤ 15) := by
  decide

/-- Claim C7 (amended): in `_resolve_enable_level` the role-derived
level takes precedence — when a non-empty role is given the explicit
numeric level is ignored entirely; the explicit level is used only when
no role is given, and it is returned without clamping; separately,
`parse_privilege` (the policy-input parser) does clamp into 1..15. -/
theorem C7_level_resolution :
    (∀ r n m, r ≠ "" →
      resolve_enable_level (some r) n = resolve_enable_level (some r) m) ∧
    (∀ n, resolve_enable_level none (some n) = n) ∧
    (∀ v d, 1 ≤ parse_privilege v d ∧ parse_privilege v d ≤ 15) := by
  refine ⟨?_, ?_, ?_⟩
  · intro r n m hr
    simp [resolve_enable_level, hr]
  · intro n
    rfl
  · intro v d
    have clamp : ∀ x : Int, 1 ≤ max 1 (min 15 x) ∧ max 1 (min 15 x) ≤ 15 := by
      intro x
      constructor <;> omega
    rcases v with _ | s
    · simpa only [parse_privilege] using clamp d
    · simp only [parse_privilege]
      cases firstIntL s.data
      · exact clamp d
      · exact clamp _

theorem C7_level_resolution_witness :
    resolve_enable_level (some "OLT_ADMIN") (some 3) =
      resolve_enable_level (some "OLT_ADMIN") none ∧
    resolve_enable_level none (some 42) = 42 ∧
    (1 ≤ parse_privilege (some "99 / full") 1 ∧ parse_privilege (some "99 / full") 1 ≤ 15) :=
  ⟨C7_level_resolution.1 "OLT_ADMIN" (some 3) none (by decide),
   C7_level_resolution.2.1 42,
   C7_level_resolution.2.2 (some "99 / full") 1⟩

/-! ## Claim C9 -/

/-- Claim C9: the pagination loop of `_run_one_command` terminates —
for an output stream of finitely many PAGINATION markers followed by a
READY prompt, the loop returns successfully after exactly one `expect`
drain per marker plus one final drain (`ms.length + 1` iterations), and
in this model total recursion makes an infinite loop impossible. -/
theorem C9_pagination_terminates (cmd : String) (ms : List Ev) (t : String)
    (rest : List Ev) (acc : String) (n : Nat)
    (h : ∀ e ∈ ms, ∃ s, e = Ev.more s) :
    ∃ out, runCmdLoop cmd acc n (ms ++ Ev.prompt t :: rest) =
      .ok (out, rest, n + ms.length + 1) := by
  induction ms generalizing acc n with
  | nil => exact ⟨acc ++ t, rfl⟩
  | cons e es ih =>
    obtain ⟨s, rfl⟩ := h e (List.mem_cons_self e es)
    obtain ⟨out, hout⟩ := ih (acc ++ s) (n + 1) (fun x hx => h x (List.mem_cons_of_mem _ hx))
    refine ⟨out, ?_⟩
    rw [List.cons_append]
    rw [show runCmdLoop cmd acc n (Ev.more s :: (es ++ Ev.prompt t :: rest)) =
        runCmdLoop cmd (acc ++ s) (n + 1) (es ++ Ev.prompt t :: rest) from rfl]
    rw [hout]
    simp only [Except.ok.injEq, Prod.mk.injEq, List.length_cons]
    refine ⟨trivial, trivial, by omega⟩

theorem C9_pagination_terminates_witness :
    ∃ out, runCmdLoop "show run" "" 0 [Ev.more "p1 ", Ev.more "p2 ", Ev.prompt "p3#"] =
      .ok (out, ([] : List Ev), 3) := by
  have h := C9_pagination_terminates "show run" [Ev.more "p1 ", Ev.more "p2 "] "p3#" [] "" 0
    (by
      intro e he
      rcases List.mem_cons.mp he with h1 | h1
      · exact ⟨"p1 ", h1⟩
      · rcases List.mem_cons.mp h1 with h2 | h2
        · exact ⟨"p2 ", h2⟩
        · exact absurd h2 (List.not_mem_nil e))
  simpa using h

/-! ## Claim C8 -/

/-- Claim C8: a session whose last access is older than the fixed
15-minute idle threshold is removed (and its channel closed) by the
next sweep of `_cleanup_expired`, and a subsequent `send_line` against
its identifier fails with the session-not-found error. -/
theorem C8_idle_reaper (now : Int) (sid : String) (reg : List (String × Int)) (last : Int)
    (hmem : lookupS sid reg = some last)
    (hexp : ∀ v, (sid, v) ∈ reg → IDLE_TTL < now - v)
    (hstrip : stripS sid = sid) (hne : sid ≠ "") :
    lookupS sid (cleanupExpired now reg).1 = none ∧
    sid ∈ (cleanupExpired now reg).2 ∧
    sendLineM now sid reg = .error .sessionNotFound := by
  have h1 : lookupS sid (cleanupExpired now reg).1 = none := by
    apply lookupS_filter_none
    intro v hv
    have hv2 := hexp v hv
    simp only [decide_eq_false_iff_not, not_le]
    omega
  refine ⟨h1, ?_, ?_⟩
  · have hm : (sid, last) ∈ reg := lookupS_mem _ _ _ hmem
    have hmf : (sid, last) ∈ reg.filter fun e => decide (IDLE_TTL < now - e.2) :=
      List.mem_filter.mpr ⟨hm, by simpa using hexp last hm⟩
    exact List.mem_map.mpr ⟨(sid, last), hmf, rfl⟩
  · unfold sendLineM
    rw [hstrip]
    simp [hne, h1]

/-! ## Claim C1 -/

/-- Claim C1 counterexample: the two-command batch
`["show version", "bogus-cmd"]` where the second command triggers a
DENIED classification does not yield a report with two
`CommandResult`s — `_run_one_command` raises `CommandDenied` and
`telnet_exec_commands` (whose command loop has no try/except)
propagates it, so the batch aborts with an error instead of a result
list. -/
theorem C1_batch_denial_counterexample :
    execCmds ["show version", "bogus-cmd"]
      [Ev.prompt "show version\nZXAN V1.0\n#", Ev.denied "bogus"] =
      .error (TErr.cmdDenied "bogus-cmd") := rfl

/-- Claim C1 (amended): a DENIED classification during any command of
the batch makes `telnet_exec_commands` raise a command-denied error and
abort: if the commands before some nonempty command `c` complete
normally and the stream then answers `c` with pagination markers
followed by a DENIED event, the whole batch returns that error — no
`CommandResult` is returned for `c`, for the later commands, or even
for the earlier ones (the collected results are discarded when the
exception propagates). -/
theorem C1_batch_denial_aborts (cmds1 : List String) (c : String) (cmds2 : List String)
    (evs : List Ev) (rs : List TelnetCommandResult) (ms : List Ev) (d : String)
    (rest : List Ev)
    (h1 : execCmds cmds1 evs = .ok (rs, ms ++ Ev.denied d :: rest))
    (h2 : ∀ e ∈ ms, ∃ s, e = Ev.more s)
    (h3 : rstripNl c ≠ "") :
    execCmds (cmds1 ++ c :: cmds2) evs = .error (.cmdDenied (rstripNl c)) := by
  induction cmds1 generalizing evs rs with
  | nil =>
    simp only [execCmds, Except.ok.injEq, Prod.mk.injEq] at h1
    obtain ⟨_, h1b⟩ := h1
    subst h1b
    simp [execCmds, h3, runCmdLoop_denied (rstripNl c) d ms rest "" 0 h2]
  | cons a as ih =>
    by_cases ha : rstripNl a = ""
    · rw [List.cons_append]
      rw [show execCmds (a :: (as ++ c :: cmds2)) evs = execCmds (as ++ c :: cmds2) evs from by
        simp [execCmds, ha]]
      rw [show execCmds (a :: as) evs = execCmds as evs from by simp [execCmds, ha]] at h1
      exact ih evs rs h1
    · rw [List.cons_append]
      cases hr : runCmdLoop (rstripNl a) "" 0 evs with
      | error e =>
        rw [show execCmds (a :: as) evs = .error e from by simp [execCmds, ha, hr]] at h1
        exact absurd h1 (by simp)
      | ok v =>
        obtain ⟨raw, rest1, k⟩ := v
        have hstep : ∀ (l : List String), execCmds (a :: l) evs =
            match execCmds l rest1 with
            | .error e => .error e
            | .ok (rs0, rest2) =>
              .ok ({ cmd := rstripNl a, output := cleanOutputS raw } :: rs0, rest2) := by
          intro l
          simp [execCmds, ha, hr]
        rw [hstep as] at h1
        cases he : execCmds as rest1 with
        | error e =>
          rw [he] at h1
          exact absurd h1 (by simp)
        | ok w =>
          obtain ⟨rs0, rest2⟩ := w
          rw [he] at h1
          simp only [Except.ok.injEq, Prod.mk.injEq] at h1
          obtain ⟨_, h1b⟩ := h1
          rw [hstep (as ++ c :: cmds2)]
          rw [ih rest1 rs0 (by rw [he, h1b])]

theorem C1_batch_denial_aborts_witness :
    execCmds (["show clock"] ++ "badcmd" :: []) [Ev.prompt "ok#", Ev.denied "refused"] =
      .error (.cmdDenied (rstripNl "badcmd")) :=
  C1_batch_denial_aborts ["show clock"] "badcmd" [] [Ev.prompt "ok#", Ev.denied "refused"]
    [{ cmd := "show clock", output := cleanOutputS "ok#" }] [] "refused" []
    rfl (by intro e he; exact absurd he (List.not_mem_nil e)) (by decide)

/-! ## Claim C5 -/

/-- Claim C5 counterexample: two chunks with balanced backspaces (none
at all) on which `_clean_output` is not streaming-idempotent — the
blank-line collapsing of `_clean_output` sees a run of five newlines in
the concatenation but runs of two and three in the separate chunks. -/
theorem C5_normalizer_counterexample :
    noUnderflow 0 ("a\n\n").data = true ∧ noUnderflow 0 ("\n\n\nb").data = true ∧
    clean_output (("a\n\n").data ++ ("\n\n\nb").data) ≠
      clean_output ("a\n\n").data ++ clean_output ("\n\n\nb").data := by
  decide

theorem nbRev_append (xs ys : List Char) : ∀ acc, nbRev acc (xs ++ ys) = nbRev (nbRev acc xs) ys := by
  induction xs with
  | nil => intro acc; rfl
  | cons c cs ih =>
    intro acc
    by_cases hc : c = '\x08' <;> simp [nbRev, hc, ih]

theorem nbRev_extend : ∀ (r pre acc : List Char),
    noUnderflow pre.length r = true →
    nbRev (pre ++ acc) r = nbRev pre r ++ acc := by
  intro r
  induction r with
  | nil =>
    intro pre acc _
    rfl
  | cons c cs ih =>
    intro pre acc h
    by_cases hc : c = '\x08'
    · subst hc
      rw [noUnderflow, if_pos rfl, Bool.and_eq_true, decide_eq_true_eq] at h
      obtain ⟨h0, h1⟩ := h
      cases pre with
      | nil => exact absurd h0 (by simp)
      | cons p ps =>
        rw [show nbRev ((p :: ps) ++ acc) ('\x08' :: cs) = nbRev (ps ++ acc) cs from rfl]
        rw [show nbRev (p :: ps) ('\x08' :: cs) = nbRev ps cs from rfl]
        exact ih ps acc (by simpa using h1)
    · rw [noUnderflow, if_neg hc] at h
      rw [show nbRev (pre ++ acc) (c :: cs) = nbRev (c :: (pre ++ acc)) cs from by
        simp [nbRev, hc]]
      rw [show nbRev pre (c :: cs) = nbRev (c :: pre) cs from by simp [nbRev, hc]]
      rw [show (c :: (pre ++ acc)) = (c :: pre) ++ acc from rfl]
      exact ih (c :: pre) acc (by simpa using h)

/-- Claim C5 (amended): the backspace-resolution stage
(`_normalize_backspaces`) is streaming-compatible — whenever the second
chunk's backspaces never underflow within that chunk, normalising the
chunks separately and concatenating equals normalising the
concatenation.  The full `_clean_output` is not (see the
counterexample): its blank-line collapsing and CR/LF translation can
span the chunk boundary. -/
theorem C5_backspace_streaming (c1 c2 : List Char) (h : noUnderflow 0 c2 = true) :
    normalize_backspaces (c1 ++ c2) =
      normalize_backspaces c1 ++ normalize_backspaces c2 := by
  unfold normalize_backspaces
  rw [nbRev_append c1 c2 []]
  have hext := nbRev_extend c2 [] (nbRev [] c1) h
  simp only [List.nil_append] at hext
  rw [hext, List.reverse_append]

theorem C5_backspace_streaming_witness :
    normalize_backspaces (("ab\x08").data ++ ("cd\x08").data) =
      normalize_backspaces ("ab\x08").data ++ normalize_backspaces ("cd\x08").data :=
  C5_backspace_streaming ("ab\x08").data ("cd\x08").data (by decide)

/-! ## Claim C3 -/

/-- Claim C3 counterexample: a command whose stream is classified READY
with no DENIED anywhere, yet whose returned `CommandResult.output`
still contains the re-echoed command line (`show ver`) and ends with
the trailing prompt text (`#`) — `_run_one_command` captures
`child.before + child.after` (the match included) and `_clean_output`
strips neither. -/
theorem C3_output_counterexample :
    runOneCommandClean "show ver" [("show ver\r\nZXAN V100\r\nZXAN#").data] =
      .ok (("show ver\nZXAN V100\nZXAN#").data) ∧
    containsChunk ("show ver").data (("show ver\nZXAN V100\nZXAN#").data) = true ∧
    (("show ver\nZXAN V100\nZXAN#").data).getLast? = some '#' :=
  ⟨rfl, rfl, rfl⟩

/-- Claim C3 (amended): when the device answers a command in one read
whose classification is the READY prompt (pattern index 1, matching at
positions `s..e`), the `CommandResult.output` is `_clean_output`
applied to the entire capture up to and including the matched prompt —
the echoed command line and the trailing prompt text are retained, the
cleaning only normalises ANSI/backspace/blank-line noise. -/
theorem C3_output_retains_echo_prompt (cmd : String) (buf : List Char) (s e : Nat)
    (h : searchFrom oltCmdPats buf 0 = some (1, s, e)) (hse : s ≤ e) :
    runOneCommandClean cmd [buf] = .ok (clean_output (buf.take e)) := by
  have hnil : searchFrom oltCmdPats [] 0 = none := rfl
  have h2 : runOneCommandRaw cmd [buf] = .ok (buf.take s ++ (buf.drop s).take (e - s)) := by
    unfold runOneCommandRaw fuelFor
    simp only [List.foldr_cons, List.foldr_nil, List.length_cons, List.length_nil]
    rw [show buf.length + 0 + (0 + 1) + 1 = (buf.length + 1) + 1 from by omega]
    rw [runRawLoop]
    simp only [expectRaw, hnil, List.nil_append, h]
    simp
  unfold runOneCommandClean
  rw [h2]
  have h3 : buf.take s ++ (buf.drop s).take (e - s) = buf.take e := by
    rw [← List.take_add]
    congr 1
    omega
  simp [h3, Except.map]

theorem C3_output_retains_echo_prompt_witness :
    runOneCommandClean "terminal length 0" [("abc#").data] =
      .ok (clean_output ((("abc#").data).take 4)) :=
  C3_output_retains_echo_prompt "terminal length 0" ("abc#").data 3 4 (by decide) (by decide)

/-! ## Claim C4 -/

/-- Claim C4 counterexample: a received buffer in which both the
explicit prompt pattern and the DENIED keyword match, yet the
classifier (pexpect searcher over `create_session`'s pattern list
`[PROMPT_RE, DENIED_RE, LOGIN_RE, PASS_RE]`) resolves the event as
DENIED (index 1), because the DENIED keyword occurs earlier in the
buffer than the prompt: matcher priority does not override match
position, and the whole accumulated buffer is scanned, not only its
tail. -/
theorem C4_classifier_counterexample :
    promptM (("% Access denied\nZXAN#").data) = some (20, 21) ∧
    deniedWtM (("% Access denied\nZXAN#").data) = some (9, 15) ∧
    searchFrom csPromptWaitPats (("% Access denied\nZXAN#").data) 0 = some (1, 9, 15) :=
  ⟨rfl, rfl, rfl⟩

/-- Claim C4 (amended): pexpect resolves competing matches by earliest
match position in the entire unconsumed buffer, with pattern-list order
breaking ties only at equal positions: over `create_session`'s prompt
wait list, when both the prompt and the DENIED keyword match (and the
login/password patterns do not), the prompt wins exactly when its match
does not start later than the DENIED match, and DENIED wins whenever it
starts strictly earlier. -/
theorem C4_classifier_position_priority (buf : List Char) (ps pe ds de : Nat)
    (hp : promptM buf = some (ps, pe)) (hd : deniedWtM buf = some (ds, de))
    (hl : loginM buf = none) (hpw : passM buf = none) :
    (ps ≤ ds → searchFrom csPromptWaitPats buf 0 = some (0, ps, pe)) ∧
    (ds < ps → searchFrom csPromptWaitPats buf 0 = some (1, ds, de)) := by
  have hall : searchFrom csPromptWaitPats buf 0 =
      if ds < ps then some (1, ds, de) else some (0, ps, pe) := by
    simp [csPromptWaitPats, searchFrom, hp, hd, hl, hpw]
  constructor
  · intro hle
    rw [hall, if_neg (by omega)]
  · intro hlt
    rw [hall, if_pos hlt]

theorem C4_classifier_position_priority_witness :
    searchFrom csPromptWaitPats (("#\nx denied").data) 0 = some (0, 0, 1) :=
  (C4_classifier_position_priority (("#\nx denied").data) 0 1 4 10
    (by decide) (by decide) (by decide) (by decide)).1 (by decide)

/-! ## Claim C2 -/

/-- Claim C2 counterexample: the claim also covers the batch escalation
path (`olt_telnet._auto_enable`, one of its cited sources), but that
path tries no ordered candidate list.  With a login password and a
configured elevated secret, the single password submission uses the
elevated secret (not the login secret first), and when no prompt
follows that one submission the function raises immediately — one
submission total, with candidates remaining untried. -/
theorem C2_escalation_counterexample :
    autoEnable "pw1" (some "en2") AE1.pass AE2.timeout = AEOut.err 1 ∧
    chosenEnableSecret "pw1" (some "en2") = "en2" ∧ ("en2" : String) ≠ "pw1" := by
  refine ⟨rfl, rfl, by decide⟩

/-- Claim C2 (amended): the interactive engine
(`web_terminal._enable_with_fallbacks`) behaves as claimed — candidates
are ordered login secret, then the configured elevated secret when
truthy and distinct, then the combined `username login-secret` form;
when the second of three candidates succeeds exactly two password
submissions are made and the loop ends at the matched prompt; and
exhausting all candidates (every submission answered with another
password prompt or a timeout) raises the final enable-failure error.
The batch engine (`olt_telnet._auto_enable`) instead makes exactly one
submission — the stripped elevated secret when non-empty, else the
login secret — and raises if no prompt follows it. -/
theorem C2_escalation_candidates :
    (∀ u pw epw, epw ≠ "" → epw ≠ pw → u ++ " " ++ pw ≠ pw → u ++ " " ++ pw ≠ epw →
      buildCandidates u pw epw = [pw, epw, u ++ " " ++ pw]) ∧
    (∀ c1 c2 c3 rest, enableLoop [c1, c2, c3] (EnResp.askAgain :: EnResp.prompt :: rest) 0 =
      EnOutcome.success 2) ∧
    (∀ cands resps n, (∀ r ∈ resps, r = EnResp.askAgain ∨ r = EnResp.timeout) →
      enableLoop cands resps n = EnOutcome.failedE (n + cands.length)) ∧
    (∀ lp ep, autoEnable lp ep AE1.pass AE2.prompt =
      AEOut.ok 1 (some (chosenEnableSecret lp ep))) ∧
    (∀ lp ep r1, r1 ≠ AE2.prompt → autoEnable lp ep AE1.pass r1 = AEOut.err 1) ∧
    (∀ lp ep, stripS (ep.getD "") ≠ "" → chosenEnableSecret lp ep = stripS (ep.getD "")) := by
  refine ⟨?_, ?_, ?_, ?_, ?_, ?_⟩
  · intro u pw epw h1 h2 h3 h4
    simp [buildCandidates, h1, h2, h3, h4]
  · intro c1 c2 c3 rest
    rfl
  · intro cands
    induction cands with
    | nil =>
      intro resps n _
      simp [enableLoop]
    | cons c cs ih =>
      intro resps n h
      cases resps with
      | nil =>
        rw [show enableLoop (c :: cs) [] n = enableLoop cs [] (n + 1) from rfl]
        rw [ih [] (n + 1) (by intro r hr; exact absurd hr (List.not_mem_nil r))]
        congr 1
        simp only [List.length_cons]
        omega
      | cons r rs =>
        rcases h r (List.mem_cons_self r rs) with hr | hr <;> subst hr
        · rw [show enableLoop (c :: cs) (EnResp.askAgain :: rs) n =
              enableLoop cs rs (n + 1) from rfl]
          rw [ih rs (n + 1) (fun x hx => h x (List.mem_cons_of_mem _ hx))]
          congr 1
          simp only [List.length_cons]
          omega
        · rw [show enableLoop (c :: cs) (EnResp.timeout :: rs) n =
              enableLoop cs rs (n + 1) from rfl]
          rw [ih rs (n + 1) (fun x hx => h x (List.mem_cons_of_mem _ hx))]
          congr 1
          simp only [List.length_cons]
          omega
  · intro lp ep
    rfl
  · intro lp ep r1 h
    cases r1
    · exact absurd rfl h
    · rfl
    · rfl
    · rfl
  · intro lp ep h
    simp [chosenEnableSecret, h]

theorem C2_escalation_candidates_witness :
    buildCandidates "alice" "pw1" "en2" = ["pw1", "en2", "alice" ++ " " ++ "pw1"] ∧
    enableLoop ["pw1", "en2", "alice pw1"] [EnResp.askAgain, EnResp.prompt] 0 =
      EnOutcome.success 2 ∧
    enableLoop ["pw1", "en2"] [EnResp.askAgain, EnResp.askAgain] 0 =
      EnOutcome.failedE (0 + 2) ∧
    autoEnable "pw1" (some "en2") AE1.pass AE2.prompt =
      AEOut.ok 1 (some (chosenEnableSecret "pw1" (some "en2"))) ∧
    autoEnable "pw1" (some "en2") AE1.pass AE2.denied = AEOut.err 1 ∧
    chosenEnableSecret "pw1" (some "en2") = stripS ((some "en2").getD "") :=
  ⟨C2_escalation_candidates.1 "alice" "pw1" "en2" (by decide) (by decide)
     (by decide) (by decide),
   C2_escalation_candidates.2.1 "pw1" "en2" "alice pw1" [],
   C2_escalation_candidates.2.2.1 ["pw1", "en2"] [EnResp.askAgain, EnResp.askAgain] 0
     (by
       intro r hr
       rcases List.mem_cons.mp hr with h1 | h1
       · exact Or.inl h1
       · rcases List.mem_cons.mp h1 with h2 | h2
         · exact Or.inl h2
         · exact absurd h2 (List.not_mem_nil r)),
   C2_escalation_candidates.2.2.2.1 "pw1" (some "en2"),
   C2_escalation_candidates.2.2.2.2.1 "pw1" (some "en2") AE2.denied (by decide),
   C2_escalation_candidates.2.2.2.2.2 "pw1" (some "en2") (by decide)⟩

/-! ## Claim C6 -/

/-- Every run of `create_session` either raises with the channel closed
and the registry untouched, or returns with the channel open and the
session registered under the fresh id. -/
theorem createSessionM_cases (sc : CsScript) (u p ep sid : String)
    (now : Int) (reg : List (String × Int)) :
    (∃ e, createSessionM sc u p ep sid now reg =
      { res := .error e, channelClosed := true, reg := reg }) ∨
    createSessionM sc u p ep sid now reg =
      { res := .ok sid, channelClosed := false, reg := (sid, now) :: reg } := by
  obtain ⟨r1, r2, r3, en0, enR⟩ := sc
  cases r1 <;> try (left; exact ⟨_, rfl⟩)
  cases r2 <;> try (left; exact ⟨_, rfl⟩)
  cases r3 <;> try (left; exact ⟨_, rfl⟩)
  case prompt t =>
    by_cases hgt : stripEndsGt t
    · rw [show createSessionM ⟨R1.login, R2.pass, R3.prompt t, en0, enR⟩ u p ep sid now reg =
          (match enableFallbacks u p ep en0 enR with
           | .success _ =>
             ({ res := .ok sid, channelClosed := false, reg := (sid, now) :: reg } : CsOut)
           | .deniedE _ => { res := .error .enableDenied, channelClosed := true, reg := reg }
           | .timeoutE => { res := .error .enableTimeout, channelClosed := true, reg := reg }
           | .failedE _ => { res := .error .enableFailed, channelClosed := true, reg := reg })
        from by simp [createSessionM, hgt]]
      cases h : enableFallbacks u p ep en0 enR
      · right; rfl
      · left; exact ⟨.enableDenied, rfl⟩
      · left; exact ⟨.enableTimeout, rfl⟩
      · left; exact ⟨.enableFailed, rfl⟩
    · right
      simp [createSessionM, hgt]

/-- Claim C6: session creation is atomic — whenever any phase after the
channel is spawned fails (no login prompt, no password prompt, denied
or failed login, failed escalation), `create_session` closes the
channel, propagates the error, and adds nothing to the registry; when
every phase succeeds the session is registered under the fresh
identifier `sid` (with the current time as last access) before the call
returns, and the channel stays open. -/
theorem C6_create_session_atomic (sc : CsScript) (u p ep sid : String)
    (now : Int) (reg : List (String × Int)) :
    (∀ e, (createSessionM sc u p ep sid now reg).res = .error e →
      (createSessionM sc u p ep sid now reg).channelClosed = true ∧
      (createSessionM sc u p ep sid now reg).reg = reg) ∧
    (∀ s, (createSessionM sc u p ep sid now reg).res = .ok s →
      (createSessionM sc u p ep sid now reg).channelClosed = false ∧ s = sid ∧
      (createSessionM sc u p ep sid now reg).reg = (sid, now) :: reg ∧
      lookupS sid (createSessionM sc u p ep sid now reg).reg = some now) := by
  rcases createSessionM_cases sc u p ep sid now reg with ⟨e0, hE⟩ | hOk
  · constructor
    · intro e _
      rw [hE]
      exact ⟨rfl, rfl⟩
    · intro s hs
      rw [hE] at hs
      exact absurd hs (by simp)
  · constructor
    · intro e he
      rw [hOk] at he
      exact absurd he (by simp)
    · intro s hs
      rw [hOk] at hs
      simp only [Except.ok.injEq] at hs
      subst hs
      rw [hOk]
      exact ⟨rfl, rfl, rfl, by simp [lookupS]⟩

theorem C6_create_session_atomic_witness :
    ((createSessionM ⟨R1.timeout, R2.pass, R3.denied, EnFirst.prompt, []⟩
        "u" "p" "" "sid1" 0 []).channelClosed = true ∧
     (createSessionM ⟨R1.timeout, R2.pass, R3.denied, EnFirst.prompt, []⟩
        "u" "p" "" "sid1" 0 []).reg = []) ∧
    ((createSessionM ⟨R1.login, R2.pass, R3.prompt "ZXAN#", EnFirst.prompt, []⟩
        "u" "p" "" "sid1" 7 []).channelClosed = false ∧
     "sid1" = "sid1" ∧
     (createSessionM ⟨R1.login, R2.pass, R3.prompt "ZXAN#", EnFirst.prompt, []⟩
        "u" "p" "" "sid1" 7 []).reg = [("sid1", 7)] ∧
     lookupS "sid1" (createSessionM ⟨R1.login, R2.pass, R3.prompt "ZXAN#", EnFirst.prompt, []⟩
        "u" "p" "" "sid1" 7 []).reg = some 7) :=
  ⟨(C6_create_session_atomic ⟨R1.timeout, R2.pass, R3.denied, EnFirst.prompt, []⟩
      "u" "p" "" "sid1" 0 []).1 CsErr.noLoginPrompt rfl,
   (C6_create_session_atomic ⟨R1.login, R2.pass, R3.prompt "ZXAN#", EnFirst.prompt, []⟩
      "u" "p" "" "sid1" 7 []).2 "sid1" rfl⟩

theorem C8_idle_reaper_witness :
    lookupS "abc" (cleanupExpired 1000 [("abc", 0)]).1 = none ∧
    "abc" ∈ (cleanupExpired 1000 [("abc", 0)]).2 ∧
    sendLineM 1000 "abc" [("abc", 0)] = .error .sessionNotFound :=
  C8_idle_reaper 1000 "abc" [("abc", 0)] 0 (by decide)
    (by
      intro v hv
      simp only [List.mem_singleton, Prod.mk.injEq, true_and] at hv
      subst hv
      decide)
    (by decide) (by decide)

end TacacsDash
